import Mathlib

/-!
Shallow embedding of the resource-lifecycle core of the
whisper-transcription-tool GUI repository:

* `src/model_manager.py` — `ModelManager` (the spec's LifecycleManager):
  lazy load, tiered residency (Unloaded / CPU-cached "Secondary" /
  CUDA-resident "Primary"), idle-timeout eviction and demotion.
* `src/worker.py` — `TranscribeWorker.run` (the spec's Worker Pipeline):
  scoped acquire/release and coarse progress reporting.

The live model object is abstracted as a numeric handle.  External effects
(the CUDA probe, the psutil RAM probe, `whisper.load_model`,
`model.to(device)`) are modelled as a pure oracle `Env`.  `time.monotonic()`
is modelled by passing the current time to each operation.  Python float
arithmetic on the small quantities involved (1.5 × size, percent formulas)
is exact at the relevant magnitudes and is modelled with exact arithmetic
(`ℚ`, integer division); Python `int(...)` truncates toward zero and is
modelled by `Int.tdiv`-based truncation.
-/

namespace WhisperTool

/-- Device string for the primary (GPU) tier, as produced by
`ModelManager._preferred_device`. -/
def devCuda : String := "cuda"

/-- Device string for the secondary (CPU) tier. -/
def devCpu : String := "cpu"

/-- External world of the manager: the CUDA availability probe
(`torch.cuda.is_available`, `False` also when the import raises), the psutil
RAM probe (`psutil_ok = false` models the `except` branch of
`_can_cache_in_ram`), the loader (`whisper.load_model` followed by
`_estimate_model_bytes`; `load name device = none` models `load_model`
raising, otherwise `some (handle, sizeBytes)`), and whether
`model.to("cuda")` succeeds (`_move_model_to_cuda`). -/
structure Env where
  cuda_available : Bool
  psutil_ok : Bool
  avail_ram : Nat
  load : String → String → Option (Nat × Nat)
  cuda_move_ok : Bool

/-- Bookkeeping state of `ModelManager` (src/model_manager.py, `__init__`).
`model = none` is the Unloaded tier; `model = some h` with
`cached_cpu = true` is the Secondary (CPU RAM) tier and with
`cached_cpu = false` the Primary (CUDA) tier.  `loaded_event` is the
`threading.Event`.  `active_jobs` is kept as `ℤ` so that its nonnegativity
is a theorem rather than a typing artifact. -/
structure ManagerState where
  model_name : String
  ttl_seconds : Int
  auto_cache_ram : Bool
  model : Option Nat
  model_size_bytes : Nat
  cached_cpu : Bool
  active_jobs : Int
  last_used : Nat
  loading : Bool
  loaded_event : Bool
deriving DecidableEq

/-- `ModelManager.__init__`: fresh manager state. -/
def initState (name : String) (ttl : Int) (ac : Bool) : ManagerState :=
  { model_name := name
    ttl_seconds := ttl
    auto_cache_ram := ac
    model := none
    model_size_bytes := 0
    cached_cpu := false
    active_jobs := 0
    last_used := 0
    loading := false
    loaded_event := false }

/-- `ModelManager._is_cuda_available`. -/
def is_cuda_available (env : Env) : Bool := env.cuda_available

/-- `ModelManager._preferred_device`. -/
def preferred_device (env : Env) : String :=
  if is_cuda_available env then devCuda else devCpu

/-- `ModelManager._can_cache_in_ram`.  The constructor fixes
`cache_ram_ratio = 1.5` and nothing ever changes it, so
`int(size * 1.5)` is embedded as `3 * size / 2` (exact for every
realistic size, where the float product is exact up to truncation). -/
def can_cache_in_ram (env : Env) (s : ManagerState) : Bool :=
  if !s.auto_cache_ram then false
  else if !is_cuda_available env then false
  else if s.model_size_bytes = 0 then false
  else if !env.psutil_ok then false
  else decide (3 * s.model_size_bytes / 2 ≤ env.avail_ram)

/-- Result of `ModelManager.acquire`: the returned handle, or the raised
exception (`load_model` failure re-raised, or the
`RuntimeError("Model loading failed or was cancelled.")`). -/
inductive AcquireResult where
  | ok (h : Nat)
  | error
deriving DecidableEq

/-- Lines 187–214 of `ModelManager.acquire`: the code after
`self._loaded_event.wait()` returns, evaluated with no interference from
other threads between the wait and the re-locked sections. -/
def acquireAfterWait (env : Env) (now : Nat) (s : ManagerState) :
    ManagerState × AcquireResult :=
  match s.model with
  | none =>
    ({ s with active_jobs := max 0 (s.active_jobs - 1), last_used := now },
      AcquireResult.error)
  | some h =>
    if s.cached_cpu ∧ ¬ s.loading then
      ({ s with cached_cpu := !env.cuda_move_ok, loading := false,
                last_used := now, loaded_event := true }, AcquireResult.ok h)
    else (s, AcquireResult.ok h)

/-- `ModelManager.acquire` (lines 129–214) run by a single thread with no
interference from other threads between its locked sections (the
sequential semantics used by the worker pipeline). -/
def acquire (env : Env) (now : Nat) (s : ManagerState) :
    ManagerState × AcquireResult :=
  let s1 : ManagerState := { s with active_jobs := s.active_jobs + 1, last_used := now }
  match s.model with
  | some h =>
    if s.cached_cpu then
      if ¬ s.loading then
        ({ s1 with cached_cpu := !env.cuda_move_ok, loading := false,
                   last_used := now, loaded_event := true }, AcquireResult.ok h)
      else acquireAfterWait env now s1
    else (s1, AcquireResult.ok h)
  | none =>
    if ¬ s.loading then
      match env.load s.model_name (preferred_device env) with
      | none =>
        ({ s1 with loading := false, active_jobs := max 0 (s1.active_jobs - 1),
                   last_used := now, loaded_event := true }, AcquireResult.error)
      | some hs =>
        ({ s1 with model := some hs.1, model_size_bytes := hs.2,
                   cached_cpu := false, loading := false, last_used := now,
                   loaded_event := true }, AcquireResult.ok hs.1)
    else acquireAfterWait env now s1

/-- `ModelManager.release`. -/
def release (now : Nat) (s : ManagerState) : ManagerState :=
  { s with active_jobs := max 0 (s.active_jobs - 1), last_used := now }

/-- Off-lock action started by `maybe_unload`: nothing, the background
demotion thread (`_finish_demote_to_cpu`), or `_free_model` on the evicted
handle. -/
inductive EvictAction where
  | skip
  | demote (h : Nat)
  | free (h : Nat)
deriving DecidableEq

/-- `ModelManager.maybe_unload` (lines 222–275).  `lockAcquired` is the
outcome of the non-blocking `self._lock.acquire(blocking=False)`.  Returns
the new bookkeeping state, the boolean result, and the off-lock action. -/
def maybe_unload (env : Env) (now : Nat) (lockAcquired : Bool) (s : ManagerState) :
    ManagerState × Bool × EvictAction :=
  if !lockAcquired then (s, false, EvictAction.skip)
  else
    match s.model with
    | none => (s, false, EvictAction.skip)
    | some h =>
      if s.loading then (s, false, EvictAction.skip)
      else if s.ttl_seconds < 0 then (s, false, EvictAction.skip)
      else if s.active_jobs = 0 ∧ s.ttl_seconds ≤ (now : Int) - (s.last_used : Int) then
        if s.cached_cpu then
          if !can_cache_in_ram env s then
            ({ s with model := none, cached_cpu := false, model_size_bytes := 0 },
              true, EvictAction.free h)
          else (s, false, EvictAction.skip)
        else
          if can_cache_in_ram env s then
            if ¬ s.loading then
              ({ s with loading := true, loaded_event := false, cached_cpu := true },
                true, EvictAction.demote h)
            else (s, false, EvictAction.skip)
          else
            ({ s with model := none, cached_cpu := false, model_size_bytes := 0 },
              true, EvictAction.free h)
      else (s, false, EvictAction.skip)

/-- `ModelManager._finish_demote_to_cpu`: the background demotion thread's
final locked section. -/
def finish_demote (s : ManagerState) : ManagerState :=
  { s with loading := false, loaded_event := true }

/-- `ModelManager.update_config` (lines 37–61).  Returns the new state and
the handle handed to the asynchronous `_free_model` thread, if any. -/
def update_config (name : String) (ttl : Int) (ac : Bool) (s : ManagerState) :
    ManagerState × Option Nat :=
  let step1 : ManagerState × Option Nat :=
    if s.model_name ≠ name then
      match s.model with
      | some h =>
        ({ s with model := none, cached_cpu := false, model_size_bytes := 0 }, some h)
      | none => (s, none)
    else (s, none)
  let s2 : ManagerState :=
    { step1.1 with model_name := name, ttl_seconds := ttl, auto_cache_ram := ac }
  if ¬ s2.auto_cache_ram ∧ s2.cached_cpu ∧ s2.model.isSome then
    ({ s2 with model := none, cached_cpu := false, model_size_bytes := 0 }, s2.model)
  else (s2, step1.2)

/-- `ModelManager.force_unload`: returns the new state, the boolean result,
and the handle freed synchronously, if any. -/
def force_unload (s : ManagerState) : ManagerState × Bool × Option Nat :=
  match s.model with
  | none => (s, false, none)
  | some h =>
    ({ s with model := none, cached_cpu := false, model_size_bytes := 0 }, true, some h)

/-- Role a thread obtains in the first locked section of
`ModelManager.acquire` (lines 135–152): construct the model (`holder`),
promote the CPU-cached model (`promoter`), return the resident handle at
once (`immediate`), or fall through to `self._loaded_event.wait()`
(`waiter`). -/
inductive Role where
  | holder
  | promoter (h : Nat)
  | immediate (h : Nat)
  | waiter
deriving DecidableEq

/-- The first locked section of `ModelManager.acquire` as one atomic step
of a thread, for reasoning about interleavings. -/
def acquire_enter (now : Nat) (s : ManagerState) : ManagerState × Role :=
  let s1 : ManagerState := { s with active_jobs := s.active_jobs + 1, last_used := now }
  match s.model with
  | some h =>
    if s.cached_cpu then
      if ¬ s.loading then
        ({ s1 with loading := true, loaded_event := false }, Role.promoter h)
      else (s1, Role.waiter)
    else (s1, Role.immediate h)
  | none =>
    if ¬ s.loading then
      ({ s1 with loading := true, loaded_event := false }, Role.holder)
    else (s1, Role.waiter)

/-- Lines 170–176 of `ModelManager.acquire`: the locked cleanup that the
constructing thread runs when `whisper.load_model` raises. -/
def load_fail (now : Nat) (s : ManagerState) : ManagerState :=
  { s with loading := false, active_jobs := max 0 (s.active_jobs - 1),
           last_used := now, loaded_event := true }

/-- Lines 178–185 of `ModelManager.acquire`: the locked section run by the
constructing thread on success. -/
def load_success (now : Nat) (h size : Nat) (s : ManagerState) : ManagerState :=
  { s with model := some h, model_size_bytes := size, cached_cpu := false,
           loading := false, last_used := now, loaded_event := true }

/-- What a waiting thread observes in the locked re-check after
`self._loaded_event.wait()` (lines 190–200). -/
inductive WaitOutcome where
  | failed
  | got (h : Nat)
  | promoting (h : Nat)
deriving DecidableEq

/-- Lines 190–200 of `ModelManager.acquire` as one atomic step of a
woken-up waiter. -/
def waiter_resume (now : Nat) (s : ManagerState) : ManagerState × WaitOutcome :=
  match s.model with
  | none =>
    ({ s with active_jobs := max 0 (s.active_jobs - 1), last_used := now },
      WaitOutcome.failed)
  | some h =>
    if s.cached_cpu ∧ ¬ s.loading then
      ({ s with loading := true, loaded_event := false }, WaitOutcome.promoting h)
    else (s, WaitOutcome.got h)

/-- `k` successive threads each executing the first locked section of
`acquire`. -/
def enterIter (now : Nat) : Nat → ManagerState → ManagerState
  | 0, s => s
  | k + 1, s => (acquire_enter now (enterIter now k s)).1

/-- `k` successive woken waiters each executing the post-wait locked
re-check of `acquire`. -/
def resumeIter (now : Nat) : Nat → ManagerState → ManagerState
  | 0, s => s
  | k + 1, s => (waiter_resume now (resumeIter now k s)).1

/-- One observable operation on the manager, for reasoning about arbitrary
call sequences. -/
inductive Op where
  | acq (env : Env) (now : Nat)
  | rel (now : Nat)
  | sweep (env : Env) (now : Nat) (lockOk : Bool)
  | reconf (name : String) (ttl : Int) (ac : Bool)
  | forceEv
  | demoteDone

/-- Fold step over `(state, completed successful acquires, completed
releases)`. -/
def stepT (t : ManagerState × Nat × Nat) (op : Op) : ManagerState × Nat × Nat :=
  match op with
  | Op.acq env now =>
    let r := acquire env now t.1
    (r.1, (match r.2 with | AcquireResult.ok _ => t.2.1 + 1 | AcquireResult.error => t.2.1), t.2.2)
  | Op.rel now => (release now t.1, t.2.1, t.2.2 + 1)
  | Op.sweep env now lockOk => ((maybe_unload env now lockOk t.1).1, t.2.1, t.2.2)
  | Op.reconf name ttl ac => ((update_config name ttl ac t.1).1, t.2.1, t.2.2)
  | Op.forceEv => ((force_unload t.1).1, t.2.1, t.2.2)
  | Op.demoteDone => (finish_demote t.1, t.2.1, t.2.2)

/-- Run a sequence of manager operations from a start state, counting
completed successful acquires and completed releases. -/
def runOps (s0 : ManagerState) (ops : List Op) : ManagerState × Nat × Nat :=
  ops.foldl stepT (s0, 0, 0)

/-- Outcome flags of one `TranscribeWorker.run` job (src/worker.py): which
steps of `extract audio → acquire → transcribe → iterate segments` succeed.
`has_audio` distinguishes the in-memory-waveform input mode (extraction
skipped). -/
structure JobEnv where
  has_audio : Bool
  extract_ok : Bool
  acquire_ok : Bool
  transcribe_ok : Bool
  segments_ok : Bool
deriving DecidableEq

/-- Observable counts of one `TranscribeWorker.run` job: whether
`model_manager.acquire()` returned, how many times
`model_manager.release()` ran, and how many `finished` / `error` terminal
notifications were emitted. -/
structure RunCounts where
  acquired : Bool
  releases : Nat
  finished_emits : Nat
  error_emits : Nat
deriving DecidableEq

/-- Control flow of `TranscribeWorker.run` (lines 45–162): the outer
`try/except` emits `error` on any failure; the inner `try/finally` around
`model.transcribe` guarantees `release()`; `finished` is emitted only when
everything succeeds. -/
def worker_run (env : JobEnv) : RunCounts :=
  if !env.has_audio && !env.extract_ok then
    { acquired := false, releases := 0, finished_emits := 0, error_emits := 1 }
  else if !env.acquire_ok then
    { acquired := false, releases := 0, finished_emits := 0, error_emits := 1 }
  else if !env.transcribe_ok then
    { acquired := true, releases := 1, finished_emits := 0, error_emits := 1 }
  else if !env.segments_ok then
    { acquired := true, releases := 1, finished_emits := 0, error_emits := 1 }
  else
    { acquired := true, releases := 1, finished_emits := 1, error_emits := 0 }

/-- Python `int(x)` on a (here exactly represented) float: truncation
toward zero. -/
def pyTrunc (q : ℚ) : ℤ := if 0 ≤ q then ⌊q⌋ else ⌈q⌉

/-- Line 125 of `TranscribeWorker.run`:
`percent = int(min(100, (end_sec / total_seconds) * 100))`. -/
def segment_percent (end_sec total : ℚ) : ℤ :=
  pyTrunc (min 100 (end_sec / total * 100))

/-- Line 129 of `TranscribeWorker.run`:
`next_threshold = min(100, (int(percent / 5) + 1) * 5)`. -/
def next_threshold_after (percent : ℤ) : ℤ :=
  min 100 ((pyTrunc ((percent : ℚ) / 5) + 1) * 5)

/-- The percent values emitted by the progress loop of
`TranscribeWorker.run` (lines 106–129) over the end timestamps of the
completed segments, carrying the `next_threshold` accumulator. -/
def progress_emits (total : ℚ) : List ℚ → ℤ → List ℤ
  | [], _ => []
  | e :: rest, thr =>
    let p := segment_percent e total
    if thr ≤ p then p :: progress_emits total rest (next_threshold_after p)
    else progress_emits total rest thr

/-- Relation between two successively emitted progress percents: both are
the 100% cap, or they lie in strictly increasing 5-percent bands. -/
def bandRel (p q : ℤ) : Prop := (p = 100 ∧ q = 100) ∨ p / 5 < q / 5

/-- Claim C5: an `acquire()` that finds the resource resident at the
Secondary tier (CPU-cached) with no transition in flight synchronously
attempts promotion to CUDA before returning; it always returns the handle
(promotion failure is non-fatal and raises no error), the tier becomes
Primary exactly when the move succeeded, and on failure the handle stays
Secondary-resident. -/
theorem c5_secondary_promotion (env : Env) (now : Nat) (s : ManagerState) (h : Nat)
    (hm : s.model = some h) (hc : s.cached_cpu = true) (hl : s.loading = false) :
    acquire env now s =
      ({ s with active_jobs := s.active_jobs + 1, last_used := now,
                cached_cpu := !env.cuda_move_ok, loading := false,
                loaded_event := true }, AcquireResult.ok h) := by
  simp [acquire, hm, hc, hl]

/-- Witness for C5: a concrete CPU-cached state where the CUDA move fails;
the caller still receives the handle and the tier stays Secondary. -/
theorem c5_witness :
    acquire
      { cuda_available := true, psutil_ok := true, avail_ram := 0,
        load := fun _ _ => none, cuda_move_ok := false } 7
      { model_name := devCpu, ttl_seconds := 60, auto_cache_ram := true,
        model := some 3, model_size_bytes := 10, cached_cpu := true,
        active_jobs := 0, last_used := 0, loading := false, loaded_event := true } =
      ({ model_name := devCpu, ttl_seconds := 60, auto_cache_ram := true,
         model := some 3, model_size_bytes := 10, cached_cpu := true,
         active_jobs := 1, last_used := 7, loading := false, loaded_event := true },
        AcquireResult.ok 3) :=
  c5_secondary_promotion
    { cuda_available := true, psutil_ok := true, avail_ram := 0,
      load := fun _ _ => none, cuda_move_ok := false } 7
    { model_name := devCpu, ttl_seconds := 60, auto_cache_ram := true,
      model := some 3, model_size_bytes := 10, cached_cpu := true,
      active_jobs := 0, last_used := 0, loading := false, loaded_event := true }
    3 rfl rfl rfl

/-- Claim C6: `maybe_unload` returns `false` and leaves the whole state
unchanged (and starts no off-lock action) whenever the non-blocking lock
attempt fails, or no handle is resident, or a load/transition is in
flight, or `ttl_seconds < 0` (so −1 disables eviction), or
`active_jobs > 0`, or the idle duration is below the timeout. -/
theorem c6_tryEvict_noop (env : Env) (now : Nat) (lockOk : Bool) (s : ManagerState)
    (hcond : lockOk = false ∨ s.model = none ∨ s.loading = true ∨ s.ttl_seconds < 0 ∨
      0 < s.active_jobs ∨ (now : Int) - (s.last_used : Int) < s.ttl_seconds) :
    maybe_unload env now lockOk s = (s, false, EvictAction.skip) := by
  cases lockOk with
  | false => rfl
  | true =>
    rcases hm : s.model with _ | k
    · simp [maybe_unload, hm]
    · rcases hcond with hc | hc | hc | hc | hc | hc
      · exact absurd hc (by simp)
      · rw [hm] at hc; exact absurd hc (by simp)
      · simp [maybe_unload, hm, hc]
      · by_cases hload : s.loading <;> simp [maybe_unload, hm, hload, hc]
      · by_cases hload : s.loading <;>
          simp [maybe_unload, hm, hload] <;>
          intro hz <;> omega
      · by_cases hload : s.loading <;>
          simp [maybe_unload, hm, hload] <;>
          intro hz <;> omega

/-- Witness for C6: a loaded manager with `ttl_seconds = -1`, idle far
beyond any timeout with no active jobs, is not freed. -/
theorem c6_witness :
    maybe_unload
      { cuda_available := true, psutil_ok := true, avail_ram := 100,
        load := fun _ _ => none, cuda_move_ok := true } 1000000 true
      { model_name := devCpu, ttl_seconds := -1, auto_cache_ram := false,
        model := some 4, model_size_bytes := 10, cached_cpu := false,
        active_jobs := 0, last_used := 0, loading := false, loaded_event := true } =
      ({ model_name := devCpu, ttl_seconds := -1, auto_cache_ram := false,
         model := some 4, model_size_bytes := 10, cached_cpu := false,
         active_jobs := 0, last_used := 0, loading := false, loaded_event := true },
        false, EvictAction.skip) :=
  c6_tryEvict_noop
    { cuda_available := true, psutil_ok := true, avail_ram := 100,
      load := fun _ _ => none, cuda_move_ok := true } 1000000 true
    { model_name := devCpu, ttl_seconds := -1, auto_cache_ram := false,
      model := some 4, model_size_bytes := 10, cached_cpu := false,
      active_jobs := 0, last_used := 0, loading := false, loaded_event := true }
    (Or.inr (Or.inr (Or.inr (Or.inl (by decide)))))

/-- Concrete manager state for the C1 counterexample: Secondary-resident
(CPU-cached) model, idle past the timeout, cache feasibility still
holding. -/
def c1s : ManagerState :=
  { model_name := devCpu, ttl_seconds := 1, auto_cache_ram := true,
    model := some 2, model_size_bytes := 10, cached_cpu := true,
    active_jobs := 0, last_used := 0, loading := false, loaded_event := true }

/-- Concrete environment for the C1 counterexample: CUDA present, psutil
reporting 100 free bytes ≥ 1.5 × 10. -/
def c1e : Env :=
  { cuda_available := true, psutil_ok := true, avail_ram := 100,
    load := fun _ _ => none, cuda_move_ok := true }

/-- Counterexample to C1 as stated: with the lock free, no load in flight,
`active_jobs = 0`, `ttl = 1 ≥ 0` and idle duration 50 ≥ 1, the tier is
already Secondary and the feasibility check still passes — the claim says
this case "evicts fully to Unloaded and returns true", but `maybe_unload`
returns `false` and keeps the cached handle untouched. -/
theorem c1_counterexample :
    c1s.cached_cpu = true ∧ c1s.model = some 2 ∧ c1s.loading = false ∧
    c1s.active_jobs = 0 ∧ c1s.ttl_seconds = 1 ∧
    (c1s.ttl_seconds ≤ (50 : Int) - (c1s.last_used : Int)) ∧
    can_cache_in_ram c1e c1s = true ∧
    maybe_unload c1e 50 true c1s = (c1s, false, EvictAction.skip) := by
  decide

/-- Claim C1 (amended): in a state where `maybe_unload` finds the lock
free, a handle resident, no load/transition in flight, `ttl ≥ 0`,
`active_jobs = 0` and idle duration ≥ the timeout: if the tier is Primary
and the full feasibility check of `_can_cache_in_ram` passes (cache flag,
CUDA available, positive measured footprint, and psutil free RAM ≥ 1.5×
the footprint), it demotes Primary→Secondary — handle kept, cached flag
set, `loading` held until the off-lock `_finish_demote_to_cpu` completes —
and returns `true`; if the feasibility check fails (at either tier) it
evicts fully to Unloaded, clearing the handle and resetting the footprint,
and returns `true`; but if the tier is already Secondary and the
feasibility check still passes, it keeps the cached handle and returns
`false`. -/
theorem c1_demote_or_evict (env : Env) (now : Nat) (s : ManagerState) (h : Nat)
    (hm : s.model = some h) (hl : s.loading = false) (ht : 0 ≤ s.ttl_seconds)
    (ha : s.active_jobs = 0) (hidle : s.ttl_seconds ≤ (now : Int) - (s.last_used : Int)) :
    (s.cached_cpu = false → can_cache_in_ram env s = true →
      maybe_unload env now true s =
        ({ s with loading := true, loaded_event := false, cached_cpu := true },
          true, EvictAction.demote h) ∧
      finish_demote { s with loading := true, loaded_event := false, cached_cpu := true } =
        { s with cached_cpu := true, loading := false, loaded_event := true }) ∧
    (can_cache_in_ram env s = false →
      maybe_unload env now true s =
        ({ s with model := none, cached_cpu := false, model_size_bytes := 0 },
          true, EvictAction.free h)) ∧
    (s.cached_cpu = true → can_cache_in_ram env s = true →
      maybe_unload env now true s = (s, false, EvictAction.skip)) := by
  have httl : ¬ s.ttl_seconds < 0 := by omega
  refine ⟨fun hcc hcan => ⟨?_, rfl⟩, fun hcan => ?_, fun hcc hcan => ?_⟩
  · simp [maybe_unload, hm, hl, httl, ha, hidle, hcc, hcan]
  · by_cases hcc : s.cached_cpu <;>
      simp [maybe_unload, hm, hl, httl, ha, hidle, hcc, hcan]
  · simp [maybe_unload, hm, hl, httl, ha, hidle, hcc, hcan]

/-- Witness for C1 (amended): a concrete Primary-resident expired state
with a feasible cache probe demotes and returns `true`. -/
theorem c1_witness :
    maybe_unload c1e 50 true { c1s with cached_cpu := false } =
      ({ c1s with cached_cpu := true, loading := true, loaded_event := false },
        true, EvictAction.demote 2) :=
  ((c1_demote_or_evict c1e 50 { c1s with cached_cpu := false } 2 rfl rfl (by decide)
      rfl (by decide)).1 rfl (by decide)).1

/-- Claim C10: the demotion feasibility check is `false` — and an
idle-expired Primary-tier resource is therefore evicted fully to Unloaded
rather than demoted — whenever the measured footprint is 0 (e.g. the
measurement failed), or CUDA is reported unavailable, or the psutil memory
probe itself fails. -/
theorem c10_infeasible_demotion_evicts (env : Env) (now : Nat) (s : ManagerState) (h : Nat)
    (hfail : s.model_size_bytes = 0 ∨ env.cuda_available = false ∨ env.psutil_ok = false)
    (hm : s.model = some h) (hl : s.loading = false) (ht : 0 ≤ s.ttl_seconds)
    (ha : s.active_jobs = 0) (hidle : s.ttl_seconds ≤ (now : Int) - (s.last_used : Int))
    (hp : s.cached_cpu = false) :
    can_cache_in_ram env s = false ∧
    maybe_unload env now true s =
      ({ s with model := none, cached_cpu := false, model_size_bytes := 0 },
        true, EvictAction.free h) := by
  have hcc : can_cache_in_ram env s = false := by
    rcases hfail with hf | hf | hf <;> simp [can_cache_in_ram, is_cuda_available, hf]
  refine ⟨hcc, ?_⟩
  have httl : ¬ s.ttl_seconds < 0 := by omega
  simp [maybe_unload, hm, hl, httl, ha, hidle, hp, hcc]

/-- Witness for C10: CUDA unavailable, footprint measured 0 — the expired
Primary resource is evicted fully. -/
theorem c10_witness :
    maybe_unload
      { cuda_available := false, psutil_ok := true, avail_ram := 1000000,
        load := fun _ _ => none, cuda_move_ok := false } 30 true
      { model_name := devCpu, ttl_seconds := 2, auto_cache_ram := true,
        model := some 9, model_size_bytes := 0, cached_cpu := false,
        active_jobs := 0, last_used := 0, loading := false, loaded_event := true } =
      ({ model_name := devCpu, ttl_seconds := 2, auto_cache_ram := true,
         model := none, model_size_bytes := 0, cached_cpu := false,
         active_jobs := 0, last_used := 0, loading := false, loaded_event := true },
        true, EvictAction.free 9) :=
  (c10_infeasible_demotion_evicts
    { cuda_available := false, psutil_ok := true, avail_ram := 1000000,
      load := fun _ _ => none, cuda_move_ok := false } 30
    { model_name := devCpu, ttl_seconds := 2, auto_cache_ram := true,
      model := some 9, model_size_bytes := 0, cached_cpu := false,
      active_jobs := 0, last_used := 0, loading := false, loaded_event := true }
    9 (Or.inr (Or.inl rfl)) rfl rfl (by decide) rfl (by decide) rfl).2

/-- Model name used by the C2 counterexample. -/
def c2name : String := "base"

/-- Concrete environment for the C2 counterexample: CUDA reported
available, so the preferred device is `"cuda"`; construction there fails
while construction at `"cpu"` would succeed. -/
def c2e : Env :=
  { cuda_available := true, psutil_ok := true, avail_ram := 0,
    load := fun _ d => if d = devCpu then some (7, 100) else none,
    cuda_move_ok := true }

/-- Counterexample to C2 as stated: the preferred (Primary) construction
fails and a Secondary construction would succeed, yet `acquire` raises —
`ModelManager.acquire` calls `whisper.load_model` exactly once with
`_preferred_device()` and has no retry at `"cpu"`. -/
theorem c2_counterexample :
    preferred_device c2e = devCuda ∧
    c2e.load c2name devCuda = none ∧
    c2e.load c2name devCpu = some (7, 100) ∧
    (acquire c2e 5 (initState c2name 60 true)).2 = AcquireResult.error := by
  decide

/-- Claim C2 (amended): `acquire()` performs a single construction attempt
at the preferred device (`"cuda"` when the probe reports availability,
else `"cpu"`); if that attempt fails the failure is propagated immediately
to the caller with no retry at the Secondary tier, and the manager resets
to Unloaded / not-loading with the caller's `active_jobs` increment
undone. -/
theorem c2_no_retry (env : Env) (now : Nat) (s : ManagerState)
    (hm : s.model = none) (hl : s.loading = false)
    (hfail : env.load s.model_name (preferred_device env) = none) :
    acquire env now s =
      ({ s with active_jobs := max 0 (s.active_jobs + 1 - 1), last_used := now,
                loading := false, loaded_event := true }, AcquireResult.error) := by
  simp [acquire, hm, hl, hfail]

/-- Witness for C2 (amended): the concrete failing-Primary environment of
the counterexample propagates the failure out of `acquire`. -/
theorem c2_witness :
    acquire c2e 5 (initState c2name 60 true) =
      ({ (initState c2name 60 true) with
          active_jobs := max 0 (0 + 1 - 1),
          last_used := 5, loading := false, loaded_event := true },
        AcquireResult.error) :=
  c2_no_retry c2e 5 (initState c2name 60 true) rfl rfl (by decide)

/-- Concrete manager state for the C4 counterexample: CPU-cached model,
name `"base"`. -/
def c4s : ManagerState :=
  { model_name := c2name, ttl_seconds := 60, auto_cache_ram := true,
    model := some 3, model_size_bytes := 10, cached_cpu := true,
    active_jobs := 0, last_used := 0, loading := false, loaded_event := true }

/-- Counterexample to C4 as stated: `update_config` with the identity
(model name) unchanged but `auto_cache_ram` turned off frees the live
CPU-cached handle — the claim says non-identity changes leave the live
handle, tier and footprint untouched. -/
theorem c4_counterexample :
    c4s.model = some 3 ∧
    (update_config c2name 60 false c4s).1.model = none ∧
    (update_config c2name 60 false c4s).1.model_size_bytes = 0 ∧
    (update_config c2name 60 false c4s).2 = some 3 := by
  decide

/-- Claim C4 (amended): `update_config` with a loaded handle present: if
the identity (model name) is unchanged the live handle, its tier and its
measured footprint are left untouched by changes to the timeout or other
fields — except that turning the cache flag off while the handle is
Secondary-cached frees it (asynchronously, off-lock); if the identity
changed the old handle is freed asynchronously; and whenever a handle is
scheduled for freeing the manager retains no handle, so no two resource
instances are ever simultaneously resident. -/
theorem c4_reconfigure_frame (s : ManagerState) (name : String) (ttl : Int) (ac : Bool)
    (h : Nat) (hm : s.model = some h) :
    (name = s.model_name → (ac = true ∨ s.cached_cpu = false) →
      update_config name ttl ac s =
        ({ s with model_name := name, ttl_seconds := ttl, auto_cache_ram := ac }, none)) ∧
    (name ≠ s.model_name →
      update_config name ttl ac s =
        ({ s with model_name := name, ttl_seconds := ttl, auto_cache_ram := ac,
                  model := none, cached_cpu := false, model_size_bytes := 0 }, some h)) ∧
    (name = s.model_name → ac = false → s.cached_cpu = true →
      update_config name ttl ac s =
        ({ s with model_name := name, ttl_seconds := ttl, auto_cache_ram := ac,
                  model := none, cached_cpu := false, model_size_bytes := 0 }, some h)) ∧
    (∀ g, (update_config name ttl ac s).2 = some g →
      (update_config name ttl ac s).1.model = none) := by
  have h1 : name = s.model_name → (ac = true ∨ s.cached_cpu = false) →
      update_config name ttl ac s =
        ({ s with model_name := name, ttl_seconds := ttl, auto_cache_ram := ac }, none) := by
    intro hn hrest
    rcases hrest with hac | hcc
    · simp [update_config, hn, hm, hac]
    · simp [update_config, hn, hm, hcc]
  have h2 : name ≠ s.model_name →
      update_config name ttl ac s =
        ({ s with model_name := name, ttl_seconds := ttl, auto_cache_ram := ac,
                  model := none, cached_cpu := false, model_size_bytes := 0 }, some h) := by
    intro hn
    simp [update_config, Ne.symm hn, hm]
  have h3 : name = s.model_name → ac = false → s.cached_cpu = true →
      update_config name ttl ac s =
        ({ s with model_name := name, ttl_seconds := ttl, auto_cache_ram := ac,
                  model := none, cached_cpu := false, model_size_bytes := 0 }, some h) := by
    intro hn hac hcc
    simp [update_config, hn, hm, hac, hcc]
  refine ⟨h1, h2, h3, ?_⟩
  intro g hg
  by_cases hn : name = s.model_name
  · by_cases hac : ac = true
    · rw [h1 hn (Or.inl hac)] at hg
      exact absurd hg (by simp)
    · by_cases hcc : s.cached_cpu = true
      · rw [h3 hn (by simpa using hac) hcc]
      · rw [h1 hn (Or.inr (by simpa using hcc))] at hg
        exact absurd hg (by simp)
  · rw [h2 hn]

/-- Witness for C4 (amended): changing only the timeout with the same name
leaves the loaded handle, tier and footprint untouched. -/
theorem c4_witness :
    update_config c2name 120 true c4s =
      ({ c4s with model_name := c2name, ttl_seconds := 120, auto_cache_ram := true },
        none) :=
  (c4_reconfigure_frame c4s c2name 120 true 3 rfl).1 rfl (Or.inl rfl)

/-- A thread entering `acquire` while the model is Unloaded and no load is
in flight becomes the constructing thread. -/
theorem enter_holder_step (now : Nat) (s : ManagerState)
    (hm : s.model = none) (hl : s.loading = false) :
    acquire_enter now s =
      ({ s with active_jobs := s.active_jobs + 1, last_used := now,
                loading := true, loaded_event := false }, Role.holder) := by
  simp [acquire_enter, hm, hl]

/-- A thread entering `acquire` while a load is in flight becomes a waiter
and only increments `active_jobs`. -/
theorem enter_waiter_step (now : Nat) (s : ManagerState)
    (hm : s.model = none) (hl : s.loading = true) :
    acquire_enter now s =
      ({ s with active_jobs := s.active_jobs + 1, last_used := now }, Role.waiter) := by
  simp [acquire_enter, hm, hl]

/-- Invariants of `k` threads entering `acquire` while a load is in
flight: the model stays absent, `loading` stays set, and `active_jobs`
grows by exactly `k`. -/
theorem enterIter_props (now : Nat) (k : Nat) (s : ManagerState)
    (hm : s.model = none) (hl : s.loading = true) :
    (enterIter now k s).model = none ∧ (enterIter now k s).loading = true ∧
    (enterIter now k s).active_jobs = s.active_jobs + k := by
  induction k with
  | zero => simpa [enterIter] using ⟨hm, hl⟩
  | succ k ih =>
    obtain ⟨h1, h2, h3⟩ := ih
    rw [enterIter, enter_waiter_step now _ h1 h2]
    refine ⟨h1, h2, ?_⟩
    simp only [h3]
    push_cast
    ring

/-- A woken waiter that finds the model still absent receives the failure
and undoes its own `active_jobs` increment. -/
theorem resume_failed_step (now : Nat) (s : ManagerState) (hm : s.model = none) :
    waiter_resume now s =
      ({ s with active_jobs := max 0 (s.active_jobs - 1), last_used := now },
        WaitOutcome.failed) := by
  simp [waiter_resume, hm]

/-- Invariants of `k` woken waiters resuming after a failed load: the
model stays absent, `loading` and the completion signal are untouched, and
`active_jobs` drops by exactly `k` (no clamping, given enough pending
increments). -/
theorem resumeIter_props (now : Nat) (k : Nat) (s : ManagerState)
    (hm : s.model = none) (hk : (k : Int) ≤ s.active_jobs) :
    (resumeIter now k s).model = none ∧
    (resumeIter now k s).loading = s.loading ∧
    (resumeIter now k s).loaded_event = s.loaded_event ∧
    (resumeIter now k s).active_jobs = s.active_jobs - k := by
  induction k with
  | zero => simp [resumeIter, hm]
  | succ k ih =>
    have hk' : (k : Int) ≤ s.active_jobs := by push_cast at hk ⊢; omega
    obtain ⟨h1, h2, h3, h4⟩ := ih hk'
    rw [resumeIter, resume_failed_step now _ h1]
    refine ⟨h1, h2, h3, ?_⟩
    simp only [h4]
    have hx : (0 : Int) ≤ s.active_jobs - k - 1 := by push_cast at hk ⊢; omega
    rw [max_eq_right hx]
    push_cast
    ring

/-- Claim C3: when the construction step of `acquire()` fails, with `k`
other threads having joined as waiters on that same load attempt: the
first thread is the (only) constructor, every other thread entered as a
waiter (no second construction), after the failure every woken waiter
receives the failure outcome, and the final state is clean — handle
absent, `loading = false`, the completion event set, `active_jobs`
restored to its initial value — so a subsequent `acquire` entry becomes a
fresh constructor. -/
theorem c3_load_failure_propagates (now : Nat) (s0 : ManagerState) (k : Nat)
    (hm : s0.model = none) (hl : s0.loading = false) (ha : 0 ≤ s0.active_jobs) :
    (acquire_enter now s0).2 = Role.holder ∧
    (∀ i, i < k →
      (acquire_enter now (enterIter now i (acquire_enter now s0).1)).2 = Role.waiter) ∧
    (∀ j, j < k →
      (waiter_resume now (resumeIter now j
        (load_fail now (enterIter now k (acquire_enter now s0).1)))).2 =
        WaitOutcome.failed) ∧
    (resumeIter now k (load_fail now (enterIter now k (acquire_enter now s0).1))).model
      = none ∧
    (resumeIter now k (load_fail now (enterIter now k (acquire_enter now s0).1))).loading
      = false ∧
    (resumeIter now k
        (load_fail now (enterIter now k (acquire_enter now s0).1))).loaded_event = true ∧
    (resumeIter now k
        (load_fail now (enterIter now k (acquire_enter now s0).1))).active_jobs
      = s0.active_jobs ∧
    (acquire_enter now (resumeIter now k
        (load_fail now (enterIter now k (acquire_enter now s0).1)))).2 = Role.holder := by
  have hstep := enter_holder_step now s0 hm hl
  have hs1m : (acquire_enter now s0).1.model = none := by rw [hstep]; exact hm
  have hs1l : (acquire_enter now s0).1.loading = true := by rw [hstep]
  have hs1a : (acquire_enter now s0).1.active_jobs = s0.active_jobs + 1 := by rw [hstep]
  obtain ⟨he1, he2, he3⟩ := enterIter_props now k (acquire_enter now s0).1 hs1m hs1l
  have hfm : (load_fail now (enterIter now k (acquire_enter now s0).1)).model = none := he1
  have hfl : (load_fail now (enterIter now k (acquire_enter now s0).1)).loading = false :=
    rfl
  have hfe :
      (load_fail now (enterIter now k (acquire_enter now s0).1)).loaded_event = true := rfl
  have hfa : (load_fail now (enterIter now k (acquire_enter now s0).1)).active_jobs =
      s0.active_jobs + k := by
    show max 0 ((enterIter now k (acquire_enter now s0).1).active_jobs - 1) = _
    rw [he3, hs1a, max_eq_right (by omega)]
    ring
  have hka : (k : Int) ≤
      (load_fail now (enterIter now k (acquire_enter now s0).1)).active_jobs := by
    rw [hfa]; omega
  obtain ⟨hr1, hr2, hr3, hr4⟩ :=
    resumeIter_props now k (load_fail now (enterIter now k (acquire_enter now s0).1))
      hfm hka
  refine ⟨by rw [hstep], ?_, ?_, hr1, hr2.trans hfl, hr3.trans hfe,
    by rw [hr4, hfa]; ring, ?_⟩
  · intro i hi
    obtain ⟨g1, g2, _⟩ := enterIter_props now i (acquire_enter now s0).1 hs1m hs1l
    rw [enter_waiter_step now _ g1 g2]
  · intro j hj
    have hja : (j : Int) ≤
        (load_fail now (enterIter now k (acquire_enter now s0).1)).active_jobs := by
      rw [hfa]; push_cast; omega
    obtain ⟨g1, _, _, _⟩ :=
      resumeIter_props now j (load_fail now (enterIter now k (acquire_enter now s0).1))
        hfm hja
    rw [resume_failed_step now _ g1]
  · rw [enter_holder_step now _ hr1 (hr2.trans hfl)]

/-- Witness for C3: a fresh manager, one constructing thread and one
waiter; the load fails, the waiter receives the failure, and
`active_jobs` is restored to 0 with the state ready for a fresh load. -/
theorem c3_witness :
    (acquire_enter 2 (initState c2name 60 true)).2 = Role.holder ∧
    (waiter_resume 2 (resumeIter 2 0
      (load_fail 2 (enterIter 2 1 (acquire_enter 2 (initState c2name 60 true)).1)))).2 =
      WaitOutcome.failed ∧
    (resumeIter 2 1
      (load_fail 2 (enterIter 2 1 (acquire_enter 2 (initState c2name 60 true)).1))).active_jobs
      = 0 := by
  obtain ⟨h1, _, h3, _, _, _, h7, _⟩ :=
    c3_load_failure_propagates 2 (initState c2name 60 true) 1 rfl rfl (by decide)
  exact ⟨h1, h3 0 (by decide), h7⟩

/-- Effect of a full sequential `acquire` on `active_jobs`: it stays
nonnegative, a failing acquire leaves it unchanged (its own increment
undone), and a successful acquire increments it by exactly one. -/
theorem acquire_active_jobs (env : Env) (now : Nat) (s : ManagerState)
    (ha : 0 ≤ s.active_jobs) :
    0 ≤ (acquire env now s).1.active_jobs ∧
    ((acquire env now s).2 = AcquireResult.error →
      (acquire env now s).1.active_jobs = s.active_jobs) ∧
    (∀ hh, (acquire env now s).2 = AcquireResult.ok hh →
      (acquire env now s).1.active_jobs = s.active_jobs + 1) := by
  have hmax : max 0 (s.active_jobs + 1 - 1) = s.active_jobs := by
    rw [max_eq_right] <;> omega
  rcases hm : s.model with _ | h
  · by_cases hl : s.loading
    · simp only [acquire, acquireAfterWait, hm, hl]
      simp [hmax, ha]
    · rcases hload : env.load s.model_name (preferred_device env) with _ | pr
      · simp only [acquire, acquireAfterWait, hm, hl]
        simp [hload, hmax, ha]
      · simp only [acquire, acquireAfterWait, hm, hl]
        simp [hload]
        omega
  · by_cases hc : s.cached_cpu
    · by_cases hl : s.loading
      · simp only [acquire, acquireAfterWait, hm, hc, hl]
        simp
        omega
      · simp only [acquire, acquireAfterWait, hm, hc, hl]
        simp
        omega
    · simp only [acquire, acquireAfterWait, hm, hc]
      simp
      omega

/-- Claim C7: in every `TranscribeWorker.run` job, a successful
`acquire()` is matched by exactly one `release()` before the job ends —
including when the inference step raises — a failed `acquire()` is
followed by no `release()`, exactly one terminal notification (`finished`
or `error`) is emitted, and the balanced acquire/release pair restores the
manager's `active_jobs` to its prior value. -/
theorem c7_scoped_release (env : JobEnv) :
    ((worker_run env).acquired = true → (worker_run env).releases = 1) ∧
    ((worker_run env).acquired = false → (worker_run env).releases = 0) ∧
    (worker_run env).finished_emits + (worker_run env).error_emits = 1 ∧
    (∀ (menv : Env) (now now2 : Nat) (s : ManagerState) (hh : Nat),
      0 ≤ s.active_jobs → (acquire menv now s).2 = AcquireResult.ok hh →
      (release now2 (acquire menv now s).1).active_jobs = s.active_jobs) := by
  refine ⟨?_, ?_, ?_, ?_⟩
  · unfold worker_run; split_ifs <;> simp
  · unfold worker_run; split_ifs <;> simp
  · unfold worker_run; split_ifs <;> simp
  · intro menv now now2 s hh ha hok
    have hinc := (acquire_active_jobs menv now s ha).2.2 hh hok
    show max 0 ((acquire menv now s).1.active_jobs - 1) = s.active_jobs
    rw [hinc, max_eq_right] <;> omega

/-- Concrete job environment for the C7 witness: inference raises. -/
def c7env : JobEnv :=
  { has_audio := false, extract_ok := true, acquire_ok := true,
    transcribe_ok := false, segments_ok := true }

/-- Concrete manager environment for the C7 witness: loading succeeds. -/
def c7menv : Env :=
  { cuda_available := true, psutil_ok := true, avail_ram := 0,
    load := fun _ _ => some (5, 10), cuda_move_ok := true }

/-- Witness for C7: a job whose inference step raises still performs
exactly one release and one terminal (error) notification, and a concrete
successful acquire followed by release leaves `active_jobs` at 0. -/
theorem c7_witness :
    (worker_run c7env).releases = 1 ∧
    (worker_run c7env).finished_emits + (worker_run c7env).error_emits = 1 ∧
    (release 3 (acquire c7menv 2 (initState c2name 60 true)).1).active_jobs = 0 :=
  ⟨(c7_scoped_release c7env).1 rfl,
   (c7_scoped_release c7env).2.2.1,
   (c7_scoped_release c7env).2.2.2 c7menv 2 3
      (initState c2name 60 true) 5 (by decide) (by decide)⟩

/-- `maybe_unload` never changes `active_jobs`. -/
theorem maybe_unload_active_jobs (env : Env) (now : Nat) (lockOk : Bool)
    (s : ManagerState) :
    (maybe_unload env now lockOk s).1.active_jobs = s.active_jobs := by
  cases lockOk with
  | false => rfl
  | true =>
    rcases hm : s.model with _ | h
    · simp [maybe_unload, hm]
    · simp only [maybe_unload, hm]
      split_ifs <;> rfl

/-- `update_config` never changes `active_jobs`. -/
theorem update_config_active_jobs (name : String) (ttl : Int) (ac : Bool)
    (s : ManagerState) :
    (update_config name ttl ac s).1.active_jobs = s.active_jobs := by
  rcases hm : s.model with _ | h <;>
    · simp only [update_config, hm]
      split_ifs <;> rfl

/-- `force_unload` never changes `active_jobs`. -/
theorem force_unload_active_jobs (s : ManagerState) :
    (force_unload s).1.active_jobs = s.active_jobs := by
  rcases hm : s.model with _ | h <;> simp [force_unload, hm]

/-- Claim C8: from the initial state, for any sequence of manager
operations (acquire — including its failure paths — release, the
non-blocking sweep, reconfigure, force-unload, and background demotion
completion), `active_jobs ≥ 0` always holds — even across a `release()`
without a matching acquire — and whenever the releases so far never
exceed the successful acquires so far (balanced use), `active_jobs`
equals completed successful acquires minus completed releases at the
observation point. -/
theorem c8_active_jobs_invariant (name : String) (ttl : Int) (ac : Bool)
    (ops : List Op) :
    0 ≤ (runOps (initState name ttl ac) ops).1.active_jobs ∧
    ((∀ n : Nat,
        (runOps (initState name ttl ac) (ops.take n)).2.2 ≤
          (runOps (initState name ttl ac) (ops.take n)).2.1) →
      (runOps (initState name ttl ac) ops).1.active_jobs =
        ((runOps (initState name ttl ac) ops).2.1 : Int) -
          ((runOps (initState name ttl ac) ops).2.2 : Int)) := by
  induction ops using List.reverseRecOn with
  | nil => simp [runOps, initState]
  | append_singleton ops op ih =>
    have hrw : runOps (initState name ttl ac) (ops ++ [op]) =
        stepT (runOps (initState name ttl ac) ops) op := by
      simp [runOps, List.foldl_append]
    constructor
    · rw [hrw]
      rcases op with ⟨env, now⟩ | now | ⟨env, now, lockOk⟩ | ⟨nm, t, a⟩ | _ | _
      · exact (acquire_active_jobs env now _ ih.1).1
      · exact le_max_left _ _
      · show 0 ≤ (maybe_unload env now lockOk _).1.active_jobs
        rw [maybe_unload_active_jobs]; exact ih.1
      · show 0 ≤ (update_config nm t a _).1.active_jobs
        rw [update_config_active_jobs]; exact ih.1
      · show 0 ≤ (force_unload _).1.active_jobs
        rw [force_unload_active_jobs]; exact ih.1
      · exact ih.1
    · intro hbal
      have hbal_ops : ∀ n : Nat,
          (runOps (initState name ttl ac) (ops.take n)).2.2 ≤
            (runOps (initState name ttl ac) (ops.take n)).2.1 := by
        intro n
        by_cases hn : n ≤ ops.length
        · have := hbal n
          rwa [List.take_append_of_le_length hn] at this
        · have h1 : ops.take n = ops := List.take_of_length_le (by omega)
          have h2 : (ops ++ [op]).take ops.length = ops := by
            rw [List.take_append_of_le_length (le_refl _)]
            exact List.take_length _
          have := hbal ops.length
          rw [h2] at this
          rwa [h1]
      have hbal_full :
          (runOps (initState name ttl ac) (ops ++ [op])).2.2 ≤
            (runOps (initState name ttl ac) (ops ++ [op])).2.1 := by
        have := hbal (ops.length + 1)
        rwa [List.take_of_length_le (by simp)] at this
      have ih2 := ih.2 hbal_ops
      rw [hrw] at hbal_full ⊢
      rcases op with ⟨env, now⟩ | now | ⟨env, now, lockOk⟩ | ⟨nm, t, a⟩ | _ | _
      · rcases hres : (acquire env now (runOps (initState name ttl ac) ops).1).2 with hh | _
        · have hinc := (acquire_active_jobs env now _ ih.1).2.2 hh hres
          simp only [stepT, hres] at hbal_full ⊢
          rw [hinc, ih2]
          push_cast
          ring
        · have hsame := (acquire_active_jobs env now _ ih.1).2.1 hres
          simp only [stepT, hres] at hbal_full ⊢
          rw [hsame, ih2]
      · simp only [stepT] at hbal_full ⊢
        show max 0 ((runOps (initState name ttl ac) ops).1.active_jobs - 1) = _
        rw [ih2]
        have hge : (1 : Int) ≤
            ((runOps (initState name ttl ac) ops).2.1 : Int) -
              ((runOps (initState name ttl ac) ops).2.2 : Int) := by
          simp only [runOps] at hbal_full ⊢
          omega
        rw [max_eq_right (by omega)]
        push_cast
        omega
      · simp only [stepT]
        show (maybe_unload env now lockOk _).1.active_jobs = _
        rw [maybe_unload_active_jobs, ih2]
      · simp only [stepT]
        show (update_config nm t a _).1.active_jobs = _
        rw [update_config_active_jobs, ih2]
      · simp only [stepT]
        show (force_unload _).1.active_jobs = _
        rw [force_unload_active_jobs, ih2]
      · simp only [stepT]
        exact ih2

/-- Witness for C8: a concrete balanced trace — successful acquire, sweep,
release — ends with `active_jobs = 1 - 1 = 0`. -/
theorem c8_witness :
    0 ≤ (runOps (initState c2name 60 true)
        (Op.acq c7menv 2 :: Op.sweep c7menv 3 true :: Op.rel 4 :: [])).1.active_jobs ∧
    (runOps (initState c2name 60 true)
        (Op.acq c7menv 2 :: Op.sweep c7menv 3 true :: Op.rel 4 :: [])).1.active_jobs =
      ((runOps (initState c2name 60 true)
          (Op.acq c7menv 2 :: Op.sweep c7menv 3 true :: Op.rel 4 :: [])).2.1 : Int) -
        ((runOps (initState c2name 60 true)
          (Op.acq c7menv 2 :: Op.sweep c7menv 3 true :: Op.rel 4 :: [])).2.2 : Int) :=
  ⟨(c8_active_jobs_invariant c2name 60 true
      (Op.acq c7menv 2 :: Op.sweep c7menv 3 true :: Op.rel 4 :: [])).1,
   (c8_active_jobs_invariant c2name 60 true
      (Op.acq c7menv 2 :: Op.sweep c7menv 3 true :: Op.rel 4 :: [])).2
      (by
        intro n
        match n with
        | 0 => decide
        | 1 => decide
        | 2 => decide
        | m + 3 =>
          rw [List.take_of_length_le (by simp)]
          decide)⟩

/-- Python truncation agrees with the floor on nonnegative values. -/
theorem pyTrunc_eq_floor (q : ℚ) (h : 0 ≤ q) : pyTrunc q = ⌊q⌋ := if_pos h

/-- Python truncation of a value ≤ 100 is ≤ 100. -/
theorem pyTrunc_le_of_le (q : ℚ) (h : q ≤ 100) : pyTrunc q ≤ 100 := by
  unfold pyTrunc
  split_ifs with h0
  · exact le_trans (Int.floor_le_floor h) (by norm_num)
  · exact Int.ceil_le.mpr (by exact_mod_cast h)

/-- A reported percent is always capped at 100. -/
theorem segment_percent_le (e t : ℚ) : segment_percent e t ≤ 100 :=
  pyTrunc_le_of_le _ (min_le_left _ _)

/-- The truncated fifth of a nonnegative percent brackets it into its
5-percent band. -/
theorem percent_band (p : ℤ) (hp : 0 ≤ p) :
    0 ≤ pyTrunc ((p : ℚ) / 5) ∧
    5 * pyTrunc ((p : ℚ) / 5) ≤ p ∧
    p < 5 * pyTrunc ((p : ℚ) / 5) + 5 := by
  have hq : (0 : ℚ) ≤ (p : ℚ) / 5 := by positivity
  rw [pyTrunc_eq_floor _ hq]
  have h1 : ((⌊(p : ℚ) / 5⌋ : ℚ)) ≤ (p : ℚ) / 5 := Int.floor_le _
  have h2 : (p : ℚ) / 5 < ⌊(p : ℚ) / 5⌋ + 1 := Int.lt_floor_add_one _
  have h5 : (0 : ℚ) < 5 := by norm_num
  refine ⟨Int.floor_nonneg.mpr hq, ?_, ?_⟩
  · have h3 : ((⌊(p : ℚ) / 5⌋ : ℚ)) * 5 ≤ (p : ℚ) := (le_div_iff h5).mp h1
    have h4 : ((5 * ⌊(p : ℚ) / 5⌋ : ℤ) : ℚ) ≤ ((p : ℤ) : ℚ) := by push_cast; linarith
    exact_mod_cast h4
  · have h3 : ((p : ℚ)) < ((⌊(p : ℚ) / 5⌋ : ℚ) + 1) * 5 := (div_lt_iff h5).mp h2
    have h4 : ((p : ℤ) : ℚ) < ((5 * ⌊(p : ℚ) / 5⌋ + 5 : ℤ) : ℚ) := by push_cast; linarith
    exact_mod_cast h4

/-- After emitting percent `p` (with `0 ≤ p ≤ 100`), the new threshold is
within `[0, 100]`, at least `p`, and forces any later emission into the
`bandRel` relation with `p`. -/
theorem emit_step (p : ℤ) (hp0 : 0 ≤ p) (hp1 : p ≤ 100) :
    0 ≤ next_threshold_after p ∧ next_threshold_after p ≤ 100 ∧
    p ≤ next_threshold_after p ∧
    (∀ q : ℤ, next_threshold_after p ≤ q → q ≤ 100 → bandRel p q) := by
  obtain ⟨hn0, hn1, hn2⟩ := percent_band p hp0
  unfold next_threshold_after bandRel
  by_cases h99 : p ≤ 99
  · rw [min_eq_right (by omega)]
    refine ⟨by omega, by omega, by omega, ?_⟩
    intro q hq hq1
    right
    omega
  · rw [min_eq_left (by omega)]
    refine ⟨by omega, by omega, by omega, ?_⟩
    intro q hq hq1
    left
    omega

/-- Every percent emitted from threshold state `thr ∈ [0, 100]` satisfies
`thr ≤ p ≤ 100`: a notification happens only once the percent has reached
the pending threshold. -/
theorem progress_emits_mem (total : ℚ) (ends : List ℚ) :
    ∀ thr : ℤ, 0 ≤ thr → thr ≤ 100 →
      ∀ p ∈ progress_emits total ends thr, thr ≤ p ∧ p ≤ 100 := by
  induction ends with
  | nil =>
    intro thr _ _ p hp
    simp [progress_emits] at hp
  | cons e rest ih =>
    intro thr h0 h1 p hp
    simp only [progress_emits] at hp
    by_cases hemit : thr ≤ segment_percent e total
    · rw [if_pos hemit] at hp
      rcases List.mem_cons.mp hp with rfl | hmem
      · exact ⟨hemit, segment_percent_le _ _⟩
      · have hp0 : 0 ≤ segment_percent e total := le_trans h0 hemit
        obtain ⟨t0, t1, t2, _⟩ := emit_step _ hp0 (segment_percent_le _ _)
        have hrec := ih _ t0 t1 p hmem
        exact ⟨le_trans (le_trans hemit t2) hrec.1, hrec.2⟩
    · rw [if_neg hemit] at hp
      exact ih thr h0 h1 p hp

/-- Successively emitted percents are chained by `bandRel`. -/
theorem progress_emits_chain (total : ℚ) (ends : List ℚ) :
    ∀ thr : ℤ, 0 ≤ thr → thr ≤ 100 →
      List.Chain' bandRel (progress_emits total ends thr) := by
  induction ends with
  | nil =>
    intro thr _ _
    simp [progress_emits]
  | cons e rest ih =>
    intro thr h0 h1
    simp only [progress_emits]
    by_cases hemit : thr ≤ segment_percent e total
    · rw [if_pos hemit]
      have hp0 : 0 ≤ segment_percent e total := le_trans h0 hemit
      obtain ⟨t0, t1, _, t3⟩ := emit_step _ hp0 (segment_percent_le _ _)
      rw [List.chain'_cons']
      refine ⟨?_, ih _ t0 t1⟩
      intro y hy
      have hmem := progress_emits_mem total rest _ t0 t1 y (List.mem_of_mem_head? hy)
      exact t3 y hmem.1 hmem.2
    · rw [if_neg hemit]
      exact ih thr h0 h1

/-- `bandRel` is transitive. -/
theorem bandRel_trans (a b c : ℤ) (h1 : bandRel a b) (h2 : bandRel b c) : bandRel a c := by
  unfold bandRel at h1 h2 ⊢
  rcases h1 with ⟨ha, hb⟩ | h1
  · rcases h2 with ⟨hb2, hc⟩ | h2
    · exact Or.inl ⟨ha, hc⟩
    · right
      omega
  · rcases h2 with ⟨hb2, hc⟩ | h2
    · right
      omega
    · right
      omega

/-- Concrete progress trace for the C9 counterexample: a 10-second job
whose two completed segments both end at 10 s. -/
theorem c9_counterexample :
    progress_emits 10 (10 :: 10 :: []) 0 = (100 :: 100 :: []) ∧
    ¬ List.Pairwise (fun p q : ℤ => p / 5 < q / 5)
      (progress_emits 10 (10 :: 10 :: []) 0) := by
  have h : progress_emits 10 (10 :: 10 :: []) 0 = (100 :: 100 :: []) := by
    norm_num [progress_emits, segment_percent, pyTrunc, next_threshold_after]
  refine ⟨h, ?_⟩
  rw [h]
  decide

/-- Claim C9 (amended): for every job with `totalDuration > 0` and every
completed segment with end timestamp ≥ 0, the reported percent equals
`⌊min 100 (100 × end / total)⌋`; a notification is emitted only when the
percent has reached the pending threshold, thresholds stay in `[0, 100]`
(`(⌊percent/5⌋+1)·5` capped at 100), and successive notifications are in
strictly increasing 5-percent bands — except at the 100% cap, where every
segment whose percent reaches 100 may emit again; so at most one
notification occurs per 5-percent band below 100. -/
theorem c9_progress_bands :
    (∀ e t : ℚ, 0 < t → 0 ≤ e →
      segment_percent e t = ⌊min 100 (100 * e / t)⌋) ∧
    (∀ (total : ℚ) (ends : List ℚ),
      List.Pairwise bandRel (progress_emits total ends 0)) ∧
    (∀ (total : ℚ) (ends : List ℚ) (thr : ℤ), 0 ≤ thr → thr ≤ 100 →
      ∀ p ∈ progress_emits total ends thr, thr ≤ p ∧ p ≤ 100) := by
  refine ⟨?_, ?_, ?_⟩
  · intro e t ht he
    unfold segment_percent
    have h1 : e / t * 100 = 100 * e / t := by ring
    rw [h1, pyTrunc_eq_floor]
    exact le_min (by norm_num) (by positivity)
  · intro total ends
    haveI : IsTrans ℤ bandRel := ⟨bandRel_trans⟩
    exact List.chain'_iff_pairwise.mp
      (progress_emits_chain total ends 0 (by norm_num) (by norm_num))
  · intro total ends thr h0 h1 p hp
    exact progress_emits_mem total ends thr h0 h1 p hp

/-- Witness for C9 (amended): concrete instances — an 8-of-10-seconds
segment reports ⌊min 100 (100·8/10)⌋, the emitted list of that job is
band-pairwise, and its sole emission lies between the initial threshold 0
and 100. -/
theorem c9_witness :
    segment_percent 8 10 = ⌊min 100 (100 * 8 / 10 : ℚ)⌋ ∧
    List.Pairwise bandRel (progress_emits 10 (8 :: []) 0) ∧
    ((0 : ℤ) ≤ 80 ∧ (80 : ℤ) ≤ 100) :=
  ⟨c9_progress_bands.1 8 10 (by decide) (by decide),
   c9_progress_bands.2.1 10 (8 :: []),
   c9_progress_bands.2.2 10 (8 :: []) 0 (by decide) (by decide) 80
     (by norm_num [progress_emits, segment_percent, pyTrunc, next_threshold_after])⟩

end WhisperTool
